import Mathlib

/-!
# Verification of `parallel_query_demo.py`

A shallow embedding, in Lean 4, of the query-comparison demo
(`src/parallel_query_demo.py`): an aggregate-query classifier based on a
regular-expression search, a sequential cross-partition query executor, a
parallel per-feed-range executor whose per-partition results are merged
either by client-side summation (COUNT/SUM aggregates) or by concatenation,
a configuration loader, and the timing/report logic of the comparison.

Python machine values are modelled as follows: query results (`ResultItem`)
are ints, floats or structured documents, with floats embedded as rationals
(every IEEE float is a rational, and `int(x)` truncation toward zero is
exact on rationals); fallible operations return `Except`; the cooperative
scheduler of `asyncio.gather` is modelled by an explicit completion
schedule over task indices.
-/

namespace ParallelQueryDemo

/-! ## Aggregate classifier (lines 23-30 of the source)

The source compiles the pattern `\bSELECT\s+VALUE\s+(COUNT|SUM)\s*\(` with
`re.IGNORECASE` and classifies a query as a summable aggregate iff the
pattern matches somewhere in the query string (`re.search`).  The matcher
below embeds that pattern for ASCII text: `isWordChar` is `\w`, `isSpaceChar`
is `\s`, and `searchAggregate` scans every start position, requiring a word
boundary before the `S` of `SELECT` exactly as `\b` does.  None of the
pattern's pieces can overlap (whitespace, word characters and `(` are
disjoint), so the greedy, backtracking-free reading below is exact. -/

/-- ASCII word character, as matched by `\w` (relevant to the `\b` boundary). -/
def isWordChar (c : Char) : Bool :=
  c.isAlpha || c.isDigit || c == '_'

/-- ASCII whitespace, as matched by `\s`. -/
def isSpaceChar (c : Char) : Bool :=
  c == ' ' || c == '\t' || c == '\n' || c == '\r' || c == '\x0b' || c == '\x0c'

/-- Case-insensitive literal match: consume `pat` from the front of the input,
returning the rest of the input on success (models a literal regex token
under `re.IGNORECASE`). -/
def matchCI : List Char → List Char → Option (List Char)
  | [], s => some s
  | _ :: _, [] => none
  | p :: ps, c :: cs => if c.toLower == p.toLower then matchCI ps cs else none

/-- Consume a maximal run of whitespace (`\s*`). -/
def skipWs : List Char → List Char
  | [] => []
  | c :: cs => if isSpaceChar c then skipWs cs else c :: cs

/-- Consume at least one whitespace character then a maximal run (`\s+`). -/
def skipWs1 : List Char → Option (List Char)
  | [] => none
  | c :: cs => if isSpaceChar c then some (skipWs cs) else none

/-- Does `SELECT\s+VALUE\s+(COUNT|SUM)\s*\(` match starting exactly here? -/
def matchAggregateAt (s : List Char) : Bool :=
  match matchCI "select".toList s with
  | none => false
  | some s1 =>
    match skipWs1 s1 with
    | none => false
    | some s2 =>
      match matchCI "value".toList s2 with
      | none => false
      | some s3 =>
        match skipWs1 s3 with
        | none => false
        | some s4 =>
          let afterFn :=
            match matchCI "count".toList s4 with
            | some r => some r
            | none => matchCI "sum".toList s4
          match afterFn with
          | none => false
          | some s5 =>
            match skipWs s5 with
            | '(' :: _ => true
            | _ => false

/-- `re.search` over the whole string: try every position, with the `\b`
boundary condition that the previous character (if any) is not a word
character. -/
def searchAggregate : Option Char → List Char → Bool
  | prev, [] => prev.isNone && matchAggregateAt []
  | prev, c :: cs =>
    ((prev.all fun p => !isWordChar p) && matchAggregateAt (c :: cs))
      || searchAggregate (some c) cs

/-- `is_aggregate_query(query)` from the source: true iff the compiled
pattern `\bSELECT\s+VALUE\s+(COUNT|SUM)\s*\(` (case-insensitive) matches
somewhere in the query string. -/
def is_aggregate_query (query : String) : Bool :=
  searchAggregate none query.data

/-! ## Data model -/

/-- A `ResultItem`: one value yielded by the query stream.  Cosmos returns
JSON values; the demo only distinguishes numerics (`int`, `float`) from
everything else (`isinstance(value, (int, float))`), so documents are kept
opaque.  Floats are embedded as rationals. -/
inductive Item where
  | intVal : Int → Item
  | floatVal : Rat → Item
  | docVal : String → Item
deriving DecidableEq, Repr

/-- `isinstance(value, (int, float))` from the source. -/
def Item.isNumeric : Item → Bool
  | .intVal _ => true
  | .floatVal _ => true
  | .docVal _ => false

/-- Python `int(q)` on a rational: truncation toward zero. -/
def ratTrunc (q : Rat) : Int :=
  if 0 ≤ q then ⌊q⌋ else ⌈q⌉

/-- Python `int(value)` on a result item.  In the source this is only ever
applied under an `isinstance(value, (int, float))` guard; the `docVal`
branch (where CPython would raise a `TypeError`) is unreachable there. -/
def itemInt : Item → Int
  | .intVal n => n
  | .floatVal q => ratTrunc q
  | .docVal _ => 0

/-- Return value of both query executors, Python's
`Union[int, List[Dict[str, Any]]]`: a bare scalar for recognized
aggregates, otherwise the item list. -/
inductive QueryOutcome where
  | scalar : Int → QueryOutcome
  | items : List Item → QueryOutcome
deriving DecidableEq, Repr

/-- Errors raised by store operations (transport/throttling faults of
`query_items`); the demo never inspects them, so the message suffices. -/
abbrev Err := String

/-! ## Result merging (lines 141-155 of the source) -/

/-- The aggregate merge loop (lines 142-148): starting from `total = 0`,
for each partition's result list, add `int(value)` for every numeric
`value`, skipping non-numeric values. -/
def aggregate_merge (results : List (List Item)) : Int :=
  results.foldl
    (fun total partition_results =>
      partition_results.foldl
        (fun t value => if value.isNumeric then t + itemInt value else t)
        total)
    0

/-- The plain merge loop (lines 151-153): `all_items.extend(partition_results)`
for each partition, i.e. left-to-right concatenation. -/
def plain_merge (results : List (List Item)) : List Item :=
  results.foldl (fun all_items partition_results => all_items ++ partition_results) []

/-! ## asyncio.gather (line 137)

`asyncio.gather(*tasks)` with the default `return_exceptions=False`:
if every task succeeds it returns their results in the order the tasks
were passed in (not completion order); if any task raises, the exception
propagates and no result list is produced. -/

/-- `asyncio.gather` over already-settled task outcomes: all-or-nothing. -/
def gather : List (Except Err (List Item)) → Except Err (List (List Item))
  | [] => .ok []
  | .error e :: _ => .error e
  | .ok items :: rest =>
    match gather rest with
    | .error e => .error e
    | .ok tail => .ok (items :: tail)

/-! ## Parallel executor (lines 105-155 of the source)

`parallelized_cross_partition_query` classifies the query, enumerates the
feed ranges, launches one `query_feed_range` task per range, gathers, and
merges.  The per-range streams are the function's environment here: the
outcome (item list or store error) of `query_items(query, feed_range=r)`
for each enumerated range, in enumeration order. -/

/-- The parallel executor's result value: gather all per-range outcomes,
then sum-merge when the query was classified aggregate, else concatenate. -/
def parallelized_cross_partition_query (query : String)
    (perRange : List (Except Err (List Item))) : Except Err QueryOutcome :=
  let aggregate := is_aggregate_query query
  match gather perRange with
  | .error e => .error e
  | .ok results =>
    if aggregate then .ok (.scalar (aggregate_merge results))
    else .ok (.items (plain_merge results))

/-! ## Sequential executor (lines 78-103 of the source) -/

/-- `standard_cross_partition_query`: drain the single store-routed stream
into `items`, then return `int(items[0])` when the query is a recognized
aggregate AND exactly one item arrived AND it is numeric; otherwise return
the item list unchanged (line 100).  `stream` is the drained item list. -/
def standard_cross_partition_query (query : String) (stream : List Item) :
    QueryOutcome :=
  if is_aggregate_query query && stream.length == 1
      && (stream.getD 0 (.docVal "")).isNumeric then
    .scalar (itemInt (stream.getD 0 (.docVal "")))
  else
    .items stream

/-! ## Completion schedules

The cooperative scheduler may complete the gathered tasks in any order.
`sched` lists task indices in completion order; each completion records its
task index together with that task's (fixed) result, and `gather` then
reads the results back in task-launch order, as `asyncio.gather` does.
This makes the claim "the merged output does not depend on completion
order" expressible: the schedule is an explicit parameter. -/

/-- The completion log: task `i` finishes and records `(i, its items)`. -/
def completions (tasks : List (List Item)) (sched : List Nat) :
    List (Nat × List Item) :=
  sched.map fun i => (i, tasks.getD i [])

/-- What `asyncio.gather` hands back under completion order `sched`: for
each task slot (in launch order) the result recorded for it. -/
def gather_scheduled (tasks : List (List Item)) (sched : List Nat) :
    List (List Item) :=
  (List.range tasks.length).map fun j =>
    ((completions tasks sched).lookup j).getD []

/-! ## Timing (lines 122-139 of the source)

A clock-instrumented model of the parallel path.  The wall clock is an
abstract rational that each phase advances by that phase's duration:
`enumDur` for the feed-range enumeration (line 123), `tasksDur` for
launching and gathering all tasks (lines 134-137), `mergeDur` for the
merge loops (lines 141-155).  In the source, `start_time = time.time()` is
read AFTER enumeration (line 125) and `elapsed_time = time.time() -
start_time` is computed at line 139, after `gather` returns but BEFORE the
merge loops run. -/

/-- Returns `(elapsed_time, clock at return)` for the parallel path run
with the given phase durations, starting at clock value `t0`. -/
def parallel_query_elapsed (enumDur tasksDur mergeDur t0 : Rat) : Rat × Rat :=
  let t1 := t0 + enumDur
  let start_time := t1
  let t2 := t1 + tasksDur
  let elapsed_time := t2 - start_time
  let t3 := t2 + mergeDur
  (elapsed_time, t3)

/-! ## Configuration loading (lines 33-40 of the source)

`load_config` opens the file and runs `json.load` inside a
`try`/`except FileNotFoundError`: a missing file is caught, a warning is
printed, and `{}` is returned; any other exception — in particular the
`json.JSONDecodeError` a malformed file raises — is NOT caught. -/

/-- A JSON object, as produced by `json.load` on the config file; values
are kept opaque. -/
abbrev Config := List (String × String)

/-- Observable state of `config.json` on disk: absent, present but not
valid JSON, or present with parsed contents `c`. -/
inductive ConfigFile where
  | missing
  | malformed
  | wellFormed : Config → ConfigFile

/-- The exceptions `open`/`json.load` can raise here. -/
inductive PyErr where
  | fileNotFoundError
  | jsonDecodeError
  | zeroDivisionError
deriving DecidableEq, Repr

/-- `open(config_file)` followed by `json.load(f)`. -/
def openAndParse : ConfigFile → Except PyErr Config
  | .missing => .error .fileNotFoundError
  | .malformed => .error .jsonDecodeError
  | .wellFormed c => .ok c

/-- `load_config` from the source.  The `Bool` records whether the
"not found, using defaults" console message was printed.  The `try` block
catches exactly `FileNotFoundError` (returning the empty config `{}`);
every other exception propagates. -/
def load_config (fs : ConfigFile) : Except PyErr (Config × Bool) :=
  match openAndParse fs with
  | .ok c => .ok (c, false)
  | .error .fileNotFoundError => .ok ([], true)
  | .error e => .error e

/-! ## Comparison report (lines 203-207 of the source)

After both runs, the report prints the two elapsed times and then, only
under the guard `if parallel_time > 0`, computes and prints
`speedup = standard_time / parallel_time` and
`improvement = ((standard_time - parallel_time) / standard_time) * 100`.
The improvement expression divides by `standard_time` with no guard of its
own, so a zero standard time inside the guarded branch would raise
`ZeroDivisionError`; that fallibility is kept. -/

/-- The guarded speedup/improvement computation: `none` when the guard
`parallel_time > 0` fails (nothing printed), otherwise the pair
`(speedup, improvement)`. -/
def compare_report (standard_time parallel_time : Rat) :
    Except PyErr (Option (Rat × Rat)) :=
  if parallel_time > 0 then
    if standard_time = 0 then .error .zeroDivisionError
    else
      .ok (some (standard_time / parallel_time,
        (standard_time - parallel_time) / standard_time * 100))
  else
    .ok none

/-! ## Spec-side descriptions used by the theorem statements -/

/-- The contribution of one item to the aggregate total, as the spec
describes it: the integer truncation of a numeric item, nothing for a
non-numeric item. -/
def numTrunc : Item → Option Int
  | .intVal n => some n
  | .floatVal q => some (ratTrunc q)
  | .docVal _ => none

/-! ## Helper lemmas -/

theorem merge_step_eq (t : Int) (v : Item) :
    (if v.isNumeric then t + itemInt v else t) = t + (numTrunc v).getD 0 := by
  cases v <;> simp [Item.isNumeric, itemInt, numTrunc]

theorem aggregate_inner_foldl (l : List Item) (t : Int) :
    l.foldl (fun t value => if value.isNumeric then t + itemInt value else t) t
      = t + (l.filterMap numTrunc).sum := by
  induction l generalizing t with
  | nil => simp
  | cons v l ih =>
    simp only [List.foldl_cons]
    rw [merge_step_eq, ih, List.filterMap_cons]
    cases v with
    | intVal n => simp [numTrunc, add_assoc]
    | floatVal q => simp [numTrunc, add_assoc]
    | docVal s => simp [numTrunc]

theorem aggregate_merge_eq_sum_numTrunc (results : List (List Item)) :
    aggregate_merge results = (results.flatten.filterMap numTrunc).sum := by
  unfold aggregate_merge
  suffices h : ∀ t : Int,
      results.foldl
        (fun total partition_results =>
          partition_results.foldl
            (fun t value => if value.isNumeric then t + itemInt value else t)
            total)
        t = t + (results.flatten.filterMap numTrunc).sum by
    simpa using h 0
  induction results with
  | nil => simp
  | cons pr rs ih =>
    intro t
    rw [List.flatten_cons, List.filterMap_append, List.sum_append]
    simp only [List.foldl_cons]
    rw [aggregate_inner_foldl, ih, add_assoc]

theorem foldl_append_acc (rs : List (List Item)) (acc : List Item) :
    rs.foldl (fun all_items partition_results => all_items ++ partition_results) acc
      = acc ++ rs.flatten := by
  induction rs generalizing acc with
  | nil => simp
  | cons p rs ih => simp [ih]

theorem plain_merge_eq_flatten (results : List (List Item)) :
    plain_merge results = results.flatten := by
  simp [plain_merge, foldl_append_acc]

theorem sublist_flatten_of_mem {r : List Item} {rs : List (List Item)}
    (h : r ∈ rs) : r.Sublist rs.flatten := by
  induction rs with
  | nil => cases h
  | cons p rs ih =>
    rcases List.mem_cons.mp h with rfl | h2
    · exact List.sublist_append_left r rs.flatten
    · exact (ih h2).trans (List.sublist_append_right p rs.flatten)

theorem gather_all_ok (results : List (List Item)) :
    gather (results.map Except.ok) = .ok results := by
  induction results with
  | nil => rfl
  | cons r rs ih => simp [gather, ih]

theorem gather_error_of_mem (perRange : List (Except Err (List Item)))
    (e : Err) (h : Except.error e ∈ perRange) :
    ∃ e2, Except.error e2 ∈ perRange ∧ gather perRange = .error e2 := by
  induction perRange with
  | nil => cases h
  | cons t rest ih =>
    cases t with
    | error e1 => exact ⟨e1, List.mem_cons_self _ _, rfl⟩
    | ok l =>
      have hmem : Except.error e ∈ rest := by
        rcases List.mem_cons.mp h with h1 | h1
        · cases h1
        · exact h1
      obtain ⟨e2, hm, hg⟩ := ih hmem
      exact ⟨e2, List.mem_cons_of_mem _ hm, by simp [gather, hg]⟩

theorem lookup_completions (tasks : List (List Item)) (sched : List Nat)
    (j : Nat) (h : j ∈ sched) :
    (completions tasks sched).lookup j = some (tasks.getD j []) := by
  induction sched with
  | nil => cases h
  | cons i rest ih =>
    by_cases hij : j = i
    · subst hij
      simp [completions, List.lookup]
    · have hmem : j ∈ rest := by
        rcases List.mem_cons.mp h with h1 | h1
        · exact absurd h1 hij
        · exact h1
      have hb : (j == i) = false := by simp [hij]
      simp only [completions, List.map_cons, List.lookup, hb]
      simpa [completions] using ih hmem

theorem map_getD_range (l : List (List Item)) :
    (List.range l.length).map (fun j => l.getD j []) = l := by
  induction l with
  | nil => rfl
  | cons x xs ih =>
    rw [List.length_cons, List.range_succ_eq_map, List.map_cons, List.map_map]
    simp only [Function.comp, List.getD_cons_zero, List.getElem?_cons_succ,
      List.getD_cons_succ, List.cons.injEq]
    exact ⟨trivial, ih⟩

theorem gather_scheduled_eq (tasks : List (List Item)) (sched : List Nat)
    (h : sched.Perm (List.range tasks.length)) :
    gather_scheduled tasks sched = tasks := by
  unfold gather_scheduled
  have hcong : ∀ j ∈ List.range tasks.length,
      (((completions tasks sched).lookup j).getD []) = tasks.getD j [] := by
    intro j hj
    rw [lookup_completions tasks sched j (h.mem_iff.mpr hj)]
    rfl
  rw [List.map_congr_left hcong]
  exact map_getD_range tasks

/-! ## Claims -/

/-- C1: the spec claims any query containing GROUP BY is classified `Plain`,
but the compiled pattern `\bSELECT\s+VALUE\s+(COUNT|SUM)\s*\(` has no GROUP
BY exclusion: `is_aggregate_query` classifies
`SELECT VALUE COUNT(1) FROM c GROUP BY c.type` as an aggregate.  This
evaluates the classifier at that failing input. -/
theorem C1_groupby_query_classified_aggregate :
    is_aggregate_query "SELECT VALUE COUNT(1) FROM c GROUP BY c.type" = true := by
  decide

/-- C2: if any one per-partition task fails, the whole parallel run fails
with one of the failing tasks' errors; a partial merge of the succeeding
partitions is never returned (all-or-nothing). -/
theorem C2_parallel_all_or_nothing (query : String)
    (perRange : List (Except Err (List Item))) (e : Err)
    (h : Except.error e ∈ perRange) :
    ∃ e2, Except.error e2 ∈ perRange ∧
      parallelized_cross_partition_query query perRange = .error e2 := by
  obtain ⟨e2, hm, hg⟩ := gather_error_of_mem perRange e h
  exact ⟨e2, hm, by simp [parallelized_cross_partition_query, hg]⟩

/-- C2 witness: with the second of two partition tasks failing, the parallel
run fails with that error rather than returning the first partition's
items. -/
theorem C2_parallel_all_or_nothing_witness :
    ∃ e2, Except.error e2 ∈
        [Except.ok [Item.intVal 3], Except.error "throttled"] ∧
      parallelized_cross_partition_query "SELECT * FROM c"
        [Except.ok [Item.intVal 3], Except.error "throttled"] = .error e2 :=
  C2_parallel_all_or_nothing "SELECT * FROM c"
    [Except.ok [Item.intVal 3], Except.error "throttled"] "throttled" (by simp)

theorem filterMap_numTrunc_intVal (ns : List Int) :
    (List.filterMap numTrunc (ns.map Item.intVal)).sum = ns.sum := by
  induction ns with
  | nil => rfl
  | cons n ns ih =>
    simp only [List.map_cons, List.filterMap_cons, numTrunc, List.sum_cons, ih]

/-- C3: under `Aggregate` classification the merge sums the numeric items
across every partition into one scalar: concretely
`merge(Aggregate, [[3],[5],[0]]) = 8` (the code's bare-scalar rendering of
the one-element result `[8]`, also as produced by the full parallel
executor), and for all-numeric partitions of any shapes — zero items, one
item or many items per partition — every item is summed and no error is
raised (the merge is a total function). -/
theorem C3_aggregate_merge_sums (rs : List (List Int)) :
    aggregate_merge [[Item.intVal 3], [Item.intVal 5], [Item.intVal 0]] = 8 ∧
    parallelized_cross_partition_query "SELECT VALUE COUNT(1) FROM c"
        ([[Item.intVal 3], [Item.intVal 5], [Item.intVal 0]].map Except.ok)
      = .ok (.scalar 8) ∧
    aggregate_merge (rs.map (List.map Item.intVal)) = (rs.map List.sum).sum := by
  refine ⟨rfl, rfl, ?_⟩
  rw [aggregate_merge_eq_sum_numTrunc]
  induction rs with
  | nil => rfl
  | cons r rest ih =>
    simp only [List.map_cons, List.flatten_cons, List.filterMap_append,
      List.sum_append, List.sum_cons, ih, filterMap_numTrunc_intVal]

/-- C4: under `Plain` classification the merged result is exactly the
concatenation of the per-partition results: it contains exactly the items
of all partitions, its length is the sum of the per-partition lengths, and
each partition's internal relative order is preserved (each partition is a
sublist of the merge). -/
theorem C4_plain_merge_concat (results : List (List Item)) :
    plain_merge results = results.flatten ∧
    (plain_merge results).length = (results.map List.length).sum ∧
    ∀ r ∈ results, r.Sublist (plain_merge results) := by
  refine ⟨plain_merge_eq_flatten results, ?_, ?_⟩
  · rw [plain_merge_eq_flatten, List.length_flatten]
  · intro r hr
    rw [plain_merge_eq_flatten]
    exact sublist_flatten_of_mem hr

/-- C4 witness: `merge(Plain, [[a,b],[c]])` is `[a,b,c]`, of length 2 + 1,
with the first partition's internal order preserved. -/
theorem C4_plain_merge_concat_witness :
    plain_merge [[Item.docVal "a", Item.docVal "b"], [Item.docVal "c"]]
        = [Item.docVal "a", Item.docVal "b", Item.docVal "c"] ∧
    (plain_merge [[Item.docVal "a", Item.docVal "b"], [Item.docVal "c"]]).length
        = 3 ∧
    [Item.docVal "a", Item.docVal "b"].Sublist
      (plain_merge [[Item.docVal "a", Item.docVal "b"], [Item.docVal "c"]]) := by
  have h := C4_plain_merge_concat
    [[Item.docVal "a", Item.docVal "b"], [Item.docVal "c"]]
  exact ⟨h.1, by rw [h.2.1]; rfl,
    h.2.2 [Item.docVal "a", Item.docVal "b"] (by decide)⟩

/-- C5 counterexample: the claim says the measured interval stops only
after the merge has finished, i.e. in the clock-instrumented model the
elapsed time would be the task duration plus the merge duration.  With
enumeration 5, tasks 2 and merge 1 time units, the code's elapsed time is
2, not 2 + 1: `elapsed_time` is computed at line 139, before the merge
loops run. -/
theorem C5_timing_counterexample :
    (parallel_query_elapsed 5 2 1 0).1 = 2 ∧
    (parallel_query_elapsed 5 2 1 0).1 ≠ 2 + 1 := by
  constructor
  · norm_num [parallel_query_elapsed]
  · norm_num [parallel_query_elapsed]

/-- C5 (amended): the measured interval starts immediately before launching
the per-partition tasks and stops right after all tasks have completed but
BEFORE the merge step; the enumeration of partition ranges happens strictly
before the interval starts and is excluded from it.  In the clock model:
the elapsed time equals exactly the task-phase duration, excluding both the
enumeration duration and the merge duration, while the function still pays
all three durations in clock time. -/
theorem C5_timing_amended (enumDur tasksDur mergeDur t0 : Rat) :
    (parallel_query_elapsed enumDur tasksDur mergeDur t0).1 = tasksDur ∧
    (parallel_query_elapsed enumDur tasksDur mergeDur t0).2
      = t0 + enumDur + tasksDur + mergeDur := by
  constructor
  · show t0 + enumDur + tasksDur - (t0 + enumDur) = tasksDur
    ring
  · show t0 + enumDur + tasksDur + mergeDur = t0 + enumDur + tasksDur + mergeDur
    rfl

/-- C6: the speedup `standard_time / parallel_time` and the percentage
improvement are computed and rendered only under the guard
`parallel_time > 0`; when `parallel_time = 0` (and more generally whenever
it is not positive) the division is never performed and both figures are
omitted, so no division by zero occurs. -/
theorem C6_report_guard (s p : Rat) :
    compare_report s 0 = .ok none ∧
    (p ≤ 0 → compare_report s p = .ok none) ∧
    (0 < p → s ≠ 0 →
      compare_report s p = .ok (some (s / p, (s - p) / s * 100))) := by
  refine ⟨by simp [compare_report], fun hp => ?_, fun hp hs => ?_⟩
  · simp [compare_report, not_lt.mpr hp]
  · simp [compare_report, hp, hs]

/-- C6 witness: with a standard time of 4 and a parallel time of 2 the
report shows a 2x speedup and a 50 percent improvement; with a parallel
time of 0 it shows neither figure. -/
theorem C6_report_guard_witness :
    compare_report 4 2 = .ok (some (2, 50)) ∧ compare_report 4 0 = .ok none := by
  have h := C6_report_guard 4 2
  refine ⟨?_, h.1⟩
  rw [h.2.2 (by norm_num) (by norm_num)]
  norm_num

/-- C7 counterexample: the claim says a malformed config file is also
handled non-fatally, but `load_config` catches only `FileNotFoundError`:
on a malformed `config.json` the `json.JSONDecodeError` raised by
`json.load` propagates to the caller. -/
theorem C7_malformed_config_counterexample :
    load_config ConfigFile.malformed = .error PyErr.jsonDecodeError := rfl

/-- C7 (amended): a MISSING config file is handled locally and non-fatally —
`load_config` returns the empty configuration (the defaults) and prints the
informational fallback message — and a well-formed file loads normally; but
a malformed (present yet unparsable) file is NOT handled: the JSON parse
error propagates to the caller. -/
theorem C7_load_config_amended :
    load_config ConfigFile.missing = .ok ([], true) ∧
    (∀ c, load_config (ConfigFile.wellFormed c) = .ok (c, false)) ∧
    load_config ConfigFile.malformed = .error PyErr.jsonDecodeError :=
  ⟨rfl, fun _ => rfl, rfl⟩

/-- C8: the aggregate merge total equals the sum, over the numeric items
only, of each item's integer truncation: non-numeric items are silently
skipped (`numTrunc` maps them to nothing) and each float contributes its
own truncation toward zero (`ratTrunc`), the fractional part being
discarded item by item before the addition. -/
theorem C8_aggregate_merge_truncates (results : List (List Item)) :
    aggregate_merge results = (results.flatten.filterMap numTrunc).sum ∧
    (∀ q : Rat, numTrunc (Item.floatVal q)
      = some (if 0 ≤ q then ⌊q⌋ else ⌈q⌉)) ∧
    (∀ s : String, numTrunc (Item.docVal s) = none) :=
  ⟨aggregate_merge_eq_sum_numTrunc results, fun _ => rfl, fun _ => rfl⟩

/-- C9: the sequential executor returns a scalar iff the query is
classified aggregate AND the drained stream holds exactly one item AND that
item is numeric — the scalar then being the item's integer value; in every
other case it returns the collected item list unchanged. -/
theorem C9_standard_scalar_iff (query : String) (stream : List Item) :
    ((∃ n, standard_cross_partition_query query stream = .scalar n) ↔
      (is_aggregate_query query = true ∧
        ∃ v, stream = [v] ∧ v.isNumeric = true)) ∧
    (∀ v, is_aggregate_query query = true → stream = [v] →
      v.isNumeric = true →
      standard_cross_partition_query query stream = .scalar (itemInt v)) ∧
    (¬(is_aggregate_query query = true ∧
        ∃ v, stream = [v] ∧ v.isNumeric = true) →
      standard_cross_partition_query query stream = .items stream) := by
  cases hA : is_aggregate_query query with
  | false =>
    have hres : standard_cross_partition_query query stream = .items stream := by
      simp [standard_cross_partition_query, hA]
    refine ⟨?_, ?_, fun _ => hres⟩
    · simp [hres]
    · intro v hA1
      exact absurd hA1 (by simp)
  | true =>
    match stream with
    | [] =>
      have hres : standard_cross_partition_query query [] = .items [] := by
        simp [standard_cross_partition_query]
      refine ⟨?_, ?_, fun _ => hres⟩
      · simp [hres]
      · intro v _ hv
        exact absurd hv (by simp)
    | v :: w :: rest =>
      have hres : standard_cross_partition_query query (v :: w :: rest)
          = .items (v :: w :: rest) := by
        simp [standard_cross_partition_query]
      refine ⟨?_, ?_, fun _ => hres⟩
      · simp [hres]
      · intro u _ hu
        exact absurd hu (by simp)
    | [v] =>
      cases hN : v.isNumeric with
      | false =>
        have hres : standard_cross_partition_query query [v] = .items [v] := by
          simp [standard_cross_partition_query, hA, hN]
        refine ⟨?_, ?_, fun _ => hres⟩
        · simp [hres, hN]
        · intro u _ hu hNu
          injection hu with h1 _
          rw [← h1, hN] at hNu
          exact absurd hNu (by decide)
      | true =>
        have hres : standard_cross_partition_query query [v]
            = .scalar (itemInt v) := by
          simp [standard_cross_partition_query, hA, hN]
        refine ⟨?_, ?_, ?_⟩
        · constructor
          · intro _
            exact ⟨rfl, v, rfl, hN⟩
          · intro _
            exact ⟨itemInt v, hres⟩
        · intro u _ hu _
          injection hu with h1 _
          rw [← h1]
          exact hres
        · intro hcon
          exact absurd ⟨rfl, v, rfl, hN⟩ hcon

/-- C9 witness: for the aggregate query `SELECT VALUE COUNT(1) FROM c` and
a drained stream holding the single numeric item 7, the sequential executor
returns the scalar 7. -/
theorem C9_standard_scalar_iff_witness :
    standard_cross_partition_query "SELECT VALUE COUNT(1) FROM c"
      [Item.intVal 7] = .scalar 7 :=
  (C9_standard_scalar_iff "SELECT VALUE COUNT(1) FROM c"
    [Item.intVal 7]).2.1 (Item.intVal 7) (by decide) rfl rfl

/-- C10: for a fixed per-range result per task, the Plain-query output of
the parallel executor is deterministic: whatever order `sched` the
concurrent tasks complete in (any permutation of the task indices),
`asyncio.gather` hands the per-range results back in enumeration order, and
the merged sequence equals the concatenation of the per-range results in
the order the ranges were enumerated. -/
theorem C10_plain_deterministic (query : String) (tasks : List (List Item))
    (sched : List Nat) (hq : is_aggregate_query query = false)
    (hs : sched.Perm (List.range tasks.length)) :
    gather_scheduled tasks sched = tasks ∧
    parallelized_cross_partition_query query
        ((gather_scheduled tasks sched).map Except.ok)
      = .ok (.items tasks.flatten) := by
  have h1 := gather_scheduled_eq tasks sched hs
  refine ⟨h1, ?_⟩
  rw [h1]
  simp [parallelized_cross_partition_query, gather_all_ok, hq,
    plain_merge_eq_flatten]

/-- C10 witness: two ranges completing in reversed order `[1, 0]` still
yield the per-range results in enumeration order, and the merged Plain
output is the enumeration-order concatenation. -/
theorem C10_plain_deterministic_witness :
    gather_scheduled [[Item.docVal "a"], [Item.docVal "b"]] [1, 0]
        = [[Item.docVal "a"], [Item.docVal "b"]] ∧
    parallelized_cross_partition_query "SELECT * FROM c"
        ((gather_scheduled [[Item.docVal "a"], [Item.docVal "b"]] [1, 0]).map
          Except.ok)
      = .ok (.items [Item.docVal "a", Item.docVal "b"]) :=
  C10_plain_deterministic "SELECT * FROM c"
    [[Item.docVal "a"], [Item.docVal "b"]] [1, 0] (by decide) (by decide)

end ParallelQueryDemo
